import Mathlib

/-!
Verification of the task-manager API in `src/app.py`: an in-memory CRUD
store over task records, embedded shallowly as a pure state machine.

The embedding mirrors the source:
* `TaskCreate` is the pydantic input model (`title`, optional
  `description`, `completed`), `Task` adds `id` and `created_at`.
* `Payload` is the raw JSON request body before pydantic validation:
  `description` and `completed` may be omitted.  `parsePayload` performs
  the `Field` validation of `TaskBase` (`min_length=1, max_length=100`
  on `title`, `max_length=500` on `description`, `completed` defaulting
  to `False`) and yields a `TaskCreate` exactly when validation passes.
* `StoreState` is the module-level mutable state: `tasks_db` (a list of
  tasks) and `task_id_counter` (initially 1).
* The handler bodies `get_tasks`, `get_task`, `create_task`,
  `update_task`, `delete_task` are translated one-for-one; an
  `HTTPException` becomes the `Except.error` branch carrying the status
  code and the `detail` string.  The `_ep` variants add the framework
  layer: pydantic body validation (422) before the handler runs, and
  the mapping of outcomes to `ApiResult` responses.
* `Op`, `step`, `run` give the trace semantics used for reachability
  invariants (every request handled to completion, sequentially).

Timestamps (`datetime.utcnow().isoformat()`) are modelled by passing the
current time string `now` as an argument to create.
-/

namespace TaskApi

/-- Input model: pydantic `TaskCreate` (= `TaskBase`) after validation.
`description = none` models Python `None`. -/
structure TaskCreate where
  title : String
  description : Option String
  completed : Bool
deriving Repr, DecidableEq

/-- Stored task record, the dict built in `create_task`:
`{"id": ..., "title": ..., "description": ..., "completed": ..., "created_at": ...}`. -/
structure Task where
  id : Int
  title : String
  description : Option String
  completed : Bool
  created_at : String
deriving Repr, DecidableEq

/-- Raw JSON request body for POST/PUT before pydantic validation:
`description` and `completed` may be omitted (`none`). -/
structure Payload where
  title : String
  description : Option String
  completed : Option Bool
deriving Repr, DecidableEq

/-- The `Field` constraints on `TaskBase`: `title` has `min_length=1`
and `max_length=100`; `description`, when present, has `max_length=500`. -/
def validPayload (p : Payload) : Bool :=
  decide (1 ≤ p.title.length) && decide (p.title.length ≤ 100) &&
    Option.all (fun d => decide (d.length ≤ 500)) p.description

/-- Pydantic parsing of the request body into `TaskCreate`: applies the
declared default `completed = False` for an omitted `completed`, keeps an
omitted `description` as `None`, and fails (HTTP 422) when a `Field`
constraint is violated. -/
def parsePayload (p : Payload) : Option TaskCreate :=
  if validPayload p then
    some { title := p.title, description := p.description,
           completed := p.completed.getD false }
  else
    none

/-- The module-level mutable state of `app.py`: `tasks_db` and
`task_id_counter`. -/
structure StoreState where
  tasks_db : List Task
  task_id_counter : Int
deriving Repr, DecidableEq

/-- Initial state: `tasks_db = []`, `task_id_counter = 1`. -/
def initState : StoreState := { tasks_db := [], task_id_counter := 1 }

/-- The `detail` string of the 404 `HTTPException`:
`f"Task with id {task_id} not found"`. -/
def notFoundDetail (task_id : Int) : String :=
  "Task with id " ++ toString task_id ++ " not found"

/-- Handler `GET /tasks` (`get_tasks`): returns `tasks_db`. -/
def get_tasks (s : StoreState) : List Task :=
  s.tasks_db

/-- Handler `GET /tasks/{task_id}` (`get_task`): first task in `tasks_db`
with matching id, else 404.  (`next((t for t in tasks_db if t["id"] == task_id), None)`;
the `if not task` test is a `None` test here since task dicts are never empty.) -/
def get_task (s : StoreState) (task_id : Int) : Except (Nat × String) Task :=
  match s.tasks_db.find? (fun t => t.id == task_id) with
  | some t => .ok t
  | none => .error (404, notFoundDetail task_id)

/-- Handler `POST /tasks` (`create_task`) body: builds the new task dict
from the validated input and the current UTC time, appends it to
`tasks_db`, increments `task_id_counter`, returns the new task. -/
def create_task (s : StoreState) (task : TaskCreate) (now : String) : Task × StoreState :=
  let new_task : Task :=
    { id := s.task_id_counter, title := task.title,
      description := task.description, completed := task.completed,
      created_at := now }
  (new_task, { tasks_db := s.tasks_db ++ [new_task],
               task_id_counter := s.task_id_counter + 1 })

/-- The three in-place assignments of `update_task` applied to one task
dict: overwrite `title`, `description`, `completed`; `id` and
`created_at` are not assigned. -/
def applyUpdate (u : TaskCreate) (t : Task) : Task :=
  { t with title := u.title, description := u.description, completed := u.completed }

/-- In-place mutation of the first task with the given id inside the
list (the dict found by `next(...)` is an element of `tasks_db`, so
mutating it rewrites the list at that position). -/
def updateFirst (task_id : Int) (u : TaskCreate) : List Task → List Task
  | [] => []
  | t :: rest =>
    if t.id == task_id then applyUpdate u t :: rest
    else t :: updateFirst task_id u rest

/-- Handler `PUT /tasks/{task_id}` (`update_task`) body: 404 when no task
matches, otherwise overwrites `title`/`description`/`completed` of the
first matching task in place and returns it. -/
def update_task (s : StoreState) (task_id : Int) (task_update : TaskCreate) :
    Except (Nat × String) (Task × StoreState) :=
  match s.tasks_db.find? (fun t => t.id == task_id) with
  | none => .error (404, notFoundDetail task_id)
  | some t =>
      .ok (applyUpdate task_update t,
           { tasks_db := updateFirst task_id task_update s.tasks_db,
             task_id_counter := s.task_id_counter })

/-- Removal of the first task with the given id
(`tasks_db.pop(task_index)` at the first matching index). -/
def removeFirst (task_id : Int) : List Task → List Task
  | [] => []
  | t :: rest =>
    if t.id == task_id then rest else t :: removeFirst task_id rest

/-- Handler `DELETE /tasks/{task_id}` (`delete_task`) body: 404 when no
task matches, otherwise pops the first matching index from `tasks_db`. -/
def delete_task (s : StoreState) (task_id : Int) : Except (Nat × String) StoreState :=
  match s.tasks_db.find? (fun t => t.id == task_id) with
  | none => .error (404, notFoundDetail task_id)
  | some _ =>
      .ok { tasks_db := removeFirst task_id s.tasks_db,
            task_id_counter := s.task_id_counter }

/-- HTTP-level outcome of one request, as produced by FastAPI from the
handler result: 200 with a task list, 200 with a task, 201 created,
204 no content, 404 with a detail string, 422 validation error. -/
inductive ApiResult where
  | okList (ts : List Task)
  | okTask (t : Task)
  | created (t : Task)
  | noContent
  | notFound (detail : String)
  | unprocessable
deriving Repr, DecidableEq

/-- `GET /tasks` endpoint including the framework layer (always 200). -/
def get_tasks_ep (s : StoreState) : ApiResult :=
  .okList (get_tasks s)

/-- `GET /tasks/{task_id}` endpoint including the framework layer. -/
def get_task_ep (s : StoreState) (task_id : Int) : ApiResult :=
  match get_task s task_id with
  | .ok t => .okTask t
  | .error e => .notFound e.2

/-- `POST /tasks` endpoint including the framework layer: pydantic
validates the body before the handler runs (422 leaves the state
untouched), then the handler body executes. -/
def create_task_ep (s : StoreState) (p : Payload) (now : String) :
    ApiResult × StoreState :=
  match parsePayload p with
  | none => (.unprocessable, s)
  | some tc =>
      let r := create_task s tc now
      (.created r.1, r.2)

/-- `PUT /tasks/{task_id}` endpoint including the framework layer:
pydantic validates the body before the handler runs; then the handler
either 404s (state untouched) or updates. -/
def update_task_ep (s : StoreState) (task_id : Int) (p : Payload) :
    ApiResult × StoreState :=
  match parsePayload p with
  | none => (.unprocessable, s)
  | some tc =>
      match update_task s task_id tc with
      | .error e => (.notFound e.2, s)
      | .ok r => (.okTask r.1, r.2)

/-- `DELETE /tasks/{task_id}` endpoint including the framework layer:
404 leaves the state untouched, success returns 204 with no body. -/
def delete_task_ep (s : StoreState) (task_id : Int) : ApiResult × StoreState :=
  match delete_task s task_id with
  | .error e => (.notFound e.2, s)
  | .ok s2 => (.noContent, s2)

/-- One API request: the five task operations. -/
inductive Op where
  | list
  | get (task_id : Int)
  | create (p : Payload) (now : String)
  | update (task_id : Int) (p : Payload)
  | delete (task_id : Int)
deriving Repr, DecidableEq

/-- State transition of one handled request. -/
def step (s : StoreState) : Op → StoreState
  | .list => s
  | .get _ => s
  | .create p now => (create_task_ep s p now).2
  | .update task_id p => (update_task_ep s task_id p).2
  | .delete task_id => (delete_task_ep s task_id).2

/-- State after a sequence of requests from process start. -/
def run (ops : List Op) : StoreState :=
  ops.foldl step initState

/-- Ids of the tasks currently in the store, in list order. -/
def ids (s : StoreState) : List Int :=
  s.tasks_db.map Task.id

/-- Trace of ids handed out by the successful creates of a request
sequence, starting in state `s`, in order. -/
def assignedIds (s : StoreState) : List Op → List Int
  | [] => []
  | .create p now :: rest =>
      match parsePayload p with
      | some tc =>
          (create_task s tc now).1.id :: assignedIds (step s (.create p now)) rest
      | none => assignedIds (step s (.create p now)) rest
  | .list :: rest => assignedIds (step s .list) rest
  | .get task_id :: rest => assignedIds (step s (.get task_id)) rest
  | .update task_id p :: rest => assignedIds (step s (.update task_id p)) rest
  | .delete task_id :: rest => assignedIds (step s (.delete task_id)) rest

/-- Whether a request is a create whose body passes validation (exactly
the requests that assign an id and increment the counter). -/
def isValidCreate : Op → Bool
  | .create p _ => validPayload p
  | _ => false

/-- Number of creates in the sequence that pass validation. -/
def numValidCreates (ops : List Op) : Nat :=
  ops.countP isValidCreate

/-- Reachability invariant of the store: the counter is at least 1,
every stored id is between 1 and the counter (exclusive), and the
stored ids are strictly increasing along the list. -/
def StoreInv (s : StoreState) : Prop :=
  1 ≤ s.task_id_counter ∧
  (∀ i ∈ ids s, 1 ≤ i ∧ i < s.task_id_counter) ∧
  (ids s).Pairwise (· < ·)

/-- Sample stored task used in the concrete witnesses. -/
def sampleTask : Task :=
  { id := 1, title := "a", description := some "D", completed := true,
    created_at := "T0" }

/-- Sample one-task store used in the concrete witnesses. -/
def sampleStore : StoreState :=
  { tasks_db := [sampleTask], task_id_counter := 2 }

/-- Sample update payload omitting `description` and `completed`. -/
def samplePayload : Payload :=
  { title := "b", description := none, completed := none }

/-- The task resulting from updating `sampleTask` with `samplePayload`. -/
def sampleUpdated : Task :=
  { id := 1, title := "b", description := none, completed := false,
    created_at := "T0" }

/-- The store after the sample update. -/
def sampleStore2 : StoreState :=
  { tasks_db := [sampleUpdated], task_id_counter := 2 }

/-- A payload whose title has exactly 100 characters. -/
def title100 : Payload :=
  { title := String.mk (List.replicate 100 'a'), description := none,
    completed := none }

/-- Sample create payload with all fields supplied. -/
def samplePost : Payload :=
  { title := "T", description := some "D", completed := some false }

/-- The task resulting from posting `samplePost` into the empty store. -/
def sampleCreated : Task :=
  { id := 1, title := "T", description := some "D", completed := false,
    created_at := "N" }

/-- A successfully parsed body keeps `title` and `description` and
defaults an omitted `completed` to `false`. -/
theorem parsePayload_fields {p : Payload} {tc : TaskCreate}
    (h : parsePayload p = some tc) :
    tc.title = p.title ∧ tc.description = p.description ∧
    tc.completed = p.completed.getD false := by
  rw [parsePayload] at h
  split at h
  · injection h with h2
    subst h2
    exact ⟨rfl, rfl, rfl⟩
  · cases h

/-- Parsing succeeds exactly on valid payloads. -/
theorem parsePayload_isSome_iff (p : Payload) :
    (parsePayload p).isSome = validPayload p := by
  rw [parsePayload]
  split <;> simp_all

/-- `applyUpdate` keeps `id` and `created_at`. -/
theorem applyUpdate_id (u : TaskCreate) (t : Task) :
    (applyUpdate u t).id = t.id := rfl

/-- In-place update of a list element does not change the id sequence. -/
theorem updateFirst_map_id (task_id : Int) (u : TaskCreate) :
    ∀ l : List Task, (updateFirst task_id u l).map Task.id = l.map Task.id
  | [] => rfl
  | t :: rest => by
    rw [updateFirst]
    split
    · simp [applyUpdate]
    · simp [updateFirst_map_id task_id u rest]

/-- Removing the first match yields a sublist of the original list. -/
theorem removeFirst_sublist (task_id : Int) :
    ∀ l : List Task, List.Sublist (removeFirst task_id l) l
  | [] => List.Sublist.slnil
  | t :: rest => by
    rw [removeFirst]
    split
    · exact List.Sublist.cons t (List.Sublist.refl rest)
    · exact List.Sublist.cons₂ t (removeFirst_sublist task_id rest)

/-- Counter evolution of one step: +1 on a valid create, unchanged
otherwise. -/
theorem step_task_id_counter (s : StoreState) (op : Op) :
    (step s op).task_id_counter =
      s.task_id_counter + (if isValidCreate op then 1 else 0) := by
  cases op with
  | list => simp [step, isValidCreate]
  | get task_id => simp [step, isValidCreate]
  | create p now =>
    simp only [step, create_task_ep, isValidCreate]
    cases hp : parsePayload p with
    | none =>
      have hv := parsePayload_isSome_iff p
      rw [hp] at hv
      simp [← hv]
    | some tc =>
      have hv := parsePayload_isSome_iff p
      rw [hp] at hv
      simp [← hv, create_task]
  | update task_id p =>
    simp only [step, update_task_ep, isValidCreate]
    cases hp : parsePayload p with
    | none => simp
    | some tc =>
      unfold update_task
      cases hf : s.tasks_db.find? (fun t => t.id == task_id) <;> simp
  | delete task_id =>
    simp only [step, delete_task_ep, isValidCreate, delete_task]
    cases hf : s.tasks_db.find? (fun t => t.id == task_id) <;> simp

/-- Counter after a request sequence: initial counter plus number of
valid creates. -/
theorem foldl_step_counter :
    ∀ (ops : List Op) (s : StoreState),
      (ops.foldl step s).task_id_counter =
        s.task_id_counter + (numValidCreates ops : Int)
  | [], s => by simp [numValidCreates]
  | op :: rest, s => by
    rw [List.foldl_cons, foldl_step_counter rest (step s op),
      step_task_id_counter]
    simp only [numValidCreates, List.countP_cons]
    cases h : isValidCreate op
    · simp [h]
    · simp only [h, if_true]
      push_cast
      ring

/-- Shifting a mapped range by one: peeling the first id off a block of
consecutive ids. -/
theorem range_map_shift (c : Int) (n : Nat) :
    (List.range (n + 1)).map (fun (i : Nat) => c + (i : Int)) =
      c :: (List.range n).map (fun (i : Nat) => (c + 1) + (i : Int)) := by
  rw [List.range_succ_eq_map]
  rw [List.map_cons, List.map_map]
  simp only [Nat.cast_zero, add_zero]
  refine congrArg (c :: ·) (List.map_congr_left ?_)
  intro i _
  simp only [Function.comp_apply, Nat.succ_eq_add_one]
  push_cast
  ring

/-- The ids handed out from state `s` are the consecutive block starting
at the current counter. -/
theorem assignedIds_eq :
    ∀ (ops : List Op) (s : StoreState),
      assignedIds s ops =
        (List.range (numValidCreates ops)).map
          (fun (i : Nat) => s.task_id_counter + (i : Int))
  | [], s => by
    rw [assignedIds]
    simp [numValidCreates]
  | op :: rest, s => by
    have hrest := assignedIds_eq rest (step s op)
    have hc := step_task_id_counter s op
    cases op with
    | list =>
      rw [assignedIds, hrest, hc]
      simp [numValidCreates, List.countP_cons, isValidCreate]
    | get task_id =>
      rw [assignedIds, hrest, hc]
      simp [numValidCreates, List.countP_cons, isValidCreate]
    | update task_id p =>
      rw [assignedIds, hrest, hc]
      simp [numValidCreates, List.countP_cons, isValidCreate]
    | delete task_id =>
      rw [assignedIds, hrest, hc]
      simp [numValidCreates, List.countP_cons, isValidCreate]
    | create p now =>
      have hv := parsePayload_isSome_iff p
      rw [assignedIds]
      cases hp : parsePayload p with
      | none =>
        rw [hp] at hv
        rw [hrest, hc]
        simp only [isValidCreate, ← hv]
        simp [numValidCreates, List.countP_cons, isValidCreate, ← hv]
      | some tc =>
        rw [hp] at hv
        rw [hrest, hc]
        simp only [isValidCreate, ← hv, Option.isSome_some, if_true]
        have hcount : numValidCreates (Op.create p now :: rest) =
            numValidCreates rest + 1 := by
          simp [numValidCreates, List.countP_cons, isValidCreate, ← hv]
        rw [hcount, range_map_shift]
        simp [create_task]

/-- The invariant holds in the initial state. -/
theorem storeInv_init : StoreInv initState := by
  refine ⟨le_refl 1, ?_, ?_⟩ <;> simp [ids, initState]

/-- Appending a task bearing the current counter id and bumping the
counter preserves the invariant. -/
theorem storeInv_append (s : StoreState) (t : Task)
    (hid : t.id = s.task_id_counter) (h : StoreInv s) :
    StoreInv { tasks_db := s.tasks_db ++ [t],
               task_id_counter := s.task_id_counter + 1 } := by
  obtain ⟨h1, h2, h3⟩ := h
  rw [ids] at h2 h3
  refine ⟨?_, ?_, ?_⟩
  · show 1 ≤ s.task_id_counter + 1
    omega
  · show ∀ i ∈ (s.tasks_db ++ [t]).map Task.id,
      1 ≤ i ∧ i < s.task_id_counter + 1
    intro i hi
    simp only [List.map_append, List.map_cons, List.map_nil,
      List.mem_append, List.mem_singleton] at hi
    rcases hi with hi | hi
    · have := h2 i hi
      omega
    · rw [hi, hid]
      omega
  · show ((s.tasks_db ++ [t]).map Task.id).Pairwise (· < ·)
    simp only [List.map_append, List.map_cons, List.map_nil]
    rw [List.pairwise_append]
    refine ⟨h3, List.pairwise_singleton _ _, ?_⟩
    intro a ha b hb
    rw [List.mem_singleton] at hb
    have := h2 a ha
    rw [hb, hid]
    omega

/-- Replacing the task list by one with the same id sequence preserves
the invariant. -/
theorem storeInv_of_ids_eq (s : StoreState) (db : List Task)
    (hids : db.map Task.id = s.tasks_db.map Task.id) (h : StoreInv s) :
    StoreInv { tasks_db := db, task_id_counter := s.task_id_counter } := by
  obtain ⟨h1, h2, h3⟩ := h
  rw [ids] at h2 h3
  refine ⟨h1, ?_, ?_⟩
  · show ∀ i ∈ db.map Task.id, 1 ≤ i ∧ i < s.task_id_counter
    rw [hids]
    exact h2
  · show (db.map Task.id).Pairwise (· < ·)
    rw [hids]
    exact h3

/-- Restricting the task list to a sublist preserves the invariant. -/
theorem storeInv_sublist (s : StoreState) (db : List Task)
    (hsub : List.Sublist db s.tasks_db) (h : StoreInv s) :
    StoreInv { tasks_db := db, task_id_counter := s.task_id_counter } := by
  obtain ⟨h1, h2, h3⟩ := h
  rw [ids] at h2 h3
  have hmap : List.Sublist (db.map Task.id) (s.tasks_db.map Task.id) :=
    List.Sublist.map Task.id hsub
  refine ⟨h1, ?_, ?_⟩
  · show ∀ i ∈ db.map Task.id, 1 ≤ i ∧ i < s.task_id_counter
    intro i hi
    exact h2 i (hmap.subset hi)
  · show (db.map Task.id).Pairwise (· < ·)
    exact h3.sublist hmap

/-- Every request preserves the store invariant. -/
theorem storeInv_step (s : StoreState) (op : Op) (h : StoreInv s) :
    StoreInv (step s op) := by
  cases op with
  | list => exact h
  | get task_id => exact h
  | create p now =>
    simp only [step, create_task_ep]
    cases hp : parsePayload p with
    | none => exact h
    | some tc =>
      simp only [create_task]
      exact storeInv_append s _ rfl h
  | update task_id p =>
    simp only [step, update_task_ep]
    cases hp : parsePayload p with
    | none => exact h
    | some tc =>
      unfold update_task
      cases hf : s.tasks_db.find? (fun t => t.id == task_id) with
      | none => exact h
      | some t =>
        exact storeInv_of_ids_eq s _ (updateFirst_map_id task_id tc s.tasks_db) h
  | delete task_id =>
    simp only [step, delete_task_ep, delete_task]
    cases hf : s.tasks_db.find? (fun t => t.id == task_id) with
    | none => exact h
    | some t =>
      exact storeInv_sublist s _ (removeFirst_sublist task_id s.tasks_db) h

/-- The invariant is preserved along any request sequence. -/
theorem storeInv_foldl :
    ∀ (ops : List Op) (s : StoreState), StoreInv s → StoreInv (ops.foldl step s)
  | [], _, h => h
  | op :: rest, s, h => by
    rw [List.foldl_cons]
    exact storeInv_foldl rest (step s op) (storeInv_step s op h)

/-- Every reachable state satisfies the store invariant. -/
theorem storeInv_run (ops : List Op) : StoreInv (run ops) :=
  storeInv_foldl ops initState storeInv_init

/-- Strictly increasing ids are pairwise distinct. -/
theorem nodup_of_pairwise_lt {l : List Int} (h : l.Pairwise (· < ·)) :
    l.Nodup :=
  h.imp (fun hlt => ne_of_lt hlt)

/-- When the stored ids are distinct, no task with the removed id
remains after `removeFirst`. -/
theorem find?_removeFirst_eq_none (task_id : Int) :
    ∀ l : List Task, (l.map Task.id).Nodup →
      (removeFirst task_id l).find? (fun t => t.id == task_id) = none
  | [], _ => rfl
  | t :: rest, h => by
    rw [removeFirst]
    rw [List.map_cons, List.nodup_cons] at h
    obtain ⟨hnotin, hnd⟩ := h
    by_cases ht : (t.id == task_id) = true
    · rw [if_pos ht]
      rw [List.find?_eq_none]
      intro x hx
      simp only [beq_iff_eq]
      intro hxid
      rw [beq_iff_eq] at ht
      have hmem : x.id ∈ List.map Task.id rest := List.mem_map_of_mem Task.id hx
      rw [hxid, ← ht] at hmem
      exact hnotin hmem
    · rw [if_neg ht]
      have hskip : List.find? (fun x => x.id == task_id)
          (t :: removeFirst task_id rest) =
          List.find? (fun x => x.id == task_id) (removeFirst task_id rest) :=
        List.find?_cons_of_neg _ (by simpa using ht)
      rw [hskip]
      exact find?_removeFirst_eq_none task_id rest hnd

/-- Appending a task whose id exceeds all stored ids: looking up that id
finds exactly the appended task. -/
theorem find?_append_new (c : Int) (t2 : Task) (hid : t2.id = c) :
    ∀ l : List Task, (∀ i ∈ l.map Task.id, i < c) →
      (l ++ [t2]).find? (fun t => t.id == c) = some t2
  | [], _ => by simp [List.find?, hid]
  | t :: rest, h => by
    have ht : t.id < c := h t.id (by simp)
    rw [List.cons_append]
    have hskip : List.find? (fun x => x.id == c) (t :: (rest ++ [t2])) =
        List.find? (fun x => x.id == c) (rest ++ [t2]) :=
      List.find?_cons_of_neg _ (by simp only [beq_iff_eq]; omega)
    rw [hskip]
    exact find?_append_new c t2 hid rest (fun i hi => h i (by simp [hi]))

/-- Position-wise relation between a list and its in-place update: ids
and creation stamps never change, and entries not bearing the updated id
are untouched. -/
theorem updateFirst_forall₂ (task_id : Int) (u : TaskCreate) :
    ∀ l : List Task,
      List.Forall₂ (fun old new => new.id = old.id ∧
          new.created_at = old.created_at ∧ (old.id ≠ task_id → new = old))
        l (updateFirst task_id u l)
  | [] => List.Forall₂.nil
  | t :: rest => by
    rw [updateFirst]
    split
    · rename_i hmatch
      refine List.Forall₂.cons ⟨rfl, rfl, ?_⟩ ?_
      · intro hne
        exact absurd (by simpa using hmatch) hne
      · exact List.forall₂_same.mpr (fun x _ => ⟨rfl, rfl, fun _ => rfl⟩)
    · exact List.Forall₂.cons ⟨rfl, rfl, fun _ => rfl⟩
        (updateFirst_forall₂ task_id u rest)

/-- The updated form of the found task is stored after `updateFirst`. -/
theorem applyUpdate_mem_updateFirst (task_id : Int) (u : TaskCreate) :
    ∀ (l : List Task) (t : Task),
      l.find? (fun x => x.id == task_id) = some t →
      applyUpdate u t ∈ updateFirst task_id u l
  | [], t, h => by cases h
  | a :: rest, t, h => by
    rw [updateFirst]
    by_cases ha : (a.id == task_id) = true
    · have hfind : List.find? (fun x => x.id == task_id) (a :: rest) = some a :=
        List.find?_cons_of_pos rest ha
      rw [hfind] at h
      injection h with h2
      subst h2
      rw [if_pos ha]
      exact List.mem_cons_self _ _
    · have hskip : List.find? (fun x => x.id == task_id) (a :: rest) =
          List.find? (fun x => x.id == task_id) rest :=
        List.find?_cons_of_neg rest (by simpa using ha)
      rw [hskip] at h
      rw [if_neg ha]
      exact List.mem_cons_of_mem a
        (applyUpdate_mem_updateFirst task_id u rest t h)

/-- Characterization of a successful `update_task`: the first matching
task was found, it is returned with the three fields overwritten, and
the store holds the in-place update with the counter untouched. -/
theorem update_task_ok {s : StoreState} {task_id : Int} {u : TaskCreate}
    {t2 : Task} {s2 : StoreState}
    (h : update_task s task_id u = .ok (t2, s2)) :
    ∃ t, s.tasks_db.find? (fun x => x.id == task_id) = some t ∧
      t2 = applyUpdate u t ∧
      s2 = { tasks_db := updateFirst task_id u s.tasks_db,
             task_id_counter := s.task_id_counter } := by
  unfold update_task at h
  cases hf : s.tasks_db.find? (fun x => x.id == task_id) with
  | none =>
    rw [hf] at h
    cases h
  | some t =>
    rw [hf] at h
    injection h with h2
    injection h2 with ha hb
    exact ⟨t, rfl, ha.symm, hb.symm⟩

/-- Characterization of a successful `delete_task`: a matching task was
found and the store drops the first match, counter untouched. -/
theorem delete_task_ok {s : StoreState} {task_id : Int} {s2 : StoreState}
    (h : delete_task s task_id = .ok s2) :
    (∃ t, s.tasks_db.find? (fun x => x.id == task_id) = some t) ∧
      s2 = { tasks_db := removeFirst task_id s.tasks_db,
             task_id_counter := s.task_id_counter } := by
  unfold delete_task at h
  cases hf : s.tasks_db.find? (fun x => x.id == task_id) with
  | none =>
    rw [hf] at h
    cases h
  | some t =>
    rw [hf] at h
    injection h with h2
    exact ⟨⟨t, rfl⟩, h2.symm⟩

/-- Characterization of a 201 from the POST endpoint: the body parsed,
the new task carries the old counter as id and `now` as creation stamp,
and the store appends it and bumps the counter. -/
theorem create_task_ep_created {s : StoreState} {p : Payload} {now : String}
    {t : Task} {s2 : StoreState}
    (h : create_task_ep s p now = (.created t, s2)) :
    ∃ tc, parsePayload p = some tc ∧
      t = { id := s.task_id_counter, title := tc.title,
            description := tc.description, completed := tc.completed,
            created_at := now } ∧
      s2 = { tasks_db := s.tasks_db ++ [t],
             task_id_counter := s.task_id_counter + 1 } := by
  unfold create_task_ep at h
  cases hp : parsePayload p with
  | none =>
    rw [hp] at h
    injection h with ha hb
    cases ha
  | some tc =>
    rw [hp] at h
    simp only [create_task] at h
    injection h with ha hb
    injection ha with ha2
    exact ⟨tc, rfl, ha2.symm, by rw [← hb, ← ha2]⟩

/-- Characterization of a 200 from the PUT endpoint: the body parsed and
the handler update succeeded. -/
theorem update_task_ep_ok {s : StoreState} {task_id : Int} {p : Payload}
    {t2 : Task} {s2 : StoreState}
    (h : update_task_ep s task_id p = (.okTask t2, s2)) :
    ∃ tc, parsePayload p = some tc ∧ update_task s task_id tc = .ok (t2, s2) := by
  unfold update_task_ep at h
  cases hp : parsePayload p with
  | none =>
    rw [hp] at h
    injection h with ha hb
    cases ha
  | some tc =>
    rw [hp] at h
    dsimp only at h
    cases hu : update_task s task_id tc with
    | error e =>
      rw [hu] at h
      dsimp only at h
      injection h with ha hb
      cases ha
    | ok r =>
      rw [hu] at h
      dsimp only at h
      injection h with ha hb
      injection ha with ha2
      exact ⟨tc, rfl, by rw [hu, ← ha2, ← hb]⟩

/-- A payload whose title length is within bounds and whose description
is within bounds passes validation. -/
theorem validPayload_of_len (p : Payload)
    (h1 : 1 ≤ p.title.length) (h2 : p.title.length ≤ 100)
    (hd : Option.all (fun d => decide (d.length ≤ 500)) p.description = true) :
    validPayload p = true := by
  unfold validPayload
  rw [decide_eq_true h1, decide_eq_true h2, hd]
  rfl

/-- A title longer than 100 characters fails validation. -/
theorem validPayload_false_of_long (p : Payload)
    (h : 101 ≤ p.title.length) : validPayload p = false := by
  unfold validPayload
  have hb : decide (p.title.length ≤ 100) = false := by
    rw [decide_eq_false]
    omega
  rw [hb]
  simp

/-- An empty title fails validation. -/
theorem validPayload_false_of_empty (p : Payload)
    (h : p.title.length = 0) : validPayload p = false := by
  unfold validPayload
  have hb : decide (1 ≤ p.title.length) = false := by
    rw [decide_eq_false]
    omega
  rw [hb]
  simp

/-- An invalid payload does not parse. -/
theorem parsePayload_eq_none (p : Payload) (h : validPayload p = false) :
    parsePayload p = none := by
  unfold parsePayload
  rw [if_neg]
  simp [h]

/-- A valid payload parses to the input model with the `completed`
default applied. -/
theorem parsePayload_eq_some (p : Payload) (h : validPayload p = true) :
    parsePayload p = some { title := p.title, description := p.description,
                            completed := p.completed.getD false } := by
  unfold parsePayload
  rw [if_pos h]

/-- A 422 from the POST endpoint leaves the state untouched. -/
theorem create_task_ep_invalid (s : StoreState) (p : Payload) (now : String)
    (h : parsePayload p = none) :
    create_task_ep s p now = (.unprocessable, s) := by
  unfold create_task_ep
  rw [h]

/-- A 422 from the PUT endpoint leaves the state untouched. -/
theorem update_task_ep_invalid (s : StoreState) (task_id : Int) (p : Payload)
    (h : parsePayload p = none) :
    update_task_ep s task_id p = (.unprocessable, s) := by
  unfold update_task_ep
  rw [h]

/-- C1: starting from the empty store, the ids assigned by the
successive (validation-passing) creates of any request sequence are
exactly 1, 2, 3, …: strictly increasing starting at 1, with no id ever
assigned twice even when deletions occur in between; and in every
reachable state the stored tasks have pairwise distinct ids. -/
theorem create_ids_sequential_and_distinct (ops : List Op) :
    assignedIds initState ops =
      (List.range (numValidCreates ops)).map (fun (i : Nat) => 1 + (i : Int)) ∧
    (assignedIds initState ops).Pairwise (· < ·) ∧
    (ids (run ops)).Nodup := by
  have heq := assignedIds_eq ops initState
  refine ⟨heq, ?_, nodup_of_pairwise_lt (storeInv_run ops).2.2⟩
  rw [heq]
  rw [List.pairwise_map]
  refine List.Pairwise.imp ?_ (List.pairwise_lt_range _)
  intro a b hab
  show initState.task_id_counter + (a : Int) < initState.task_id_counter + (b : Int)
  omega

/-- C8: the list endpoint returns exactly the stored tasks, in their
stored order, which in every reachable state is insertion order (the
ids, handed out in creation order, are strictly increasing along the
list); listing never fails and listing (or any read) leaves the state
unchanged, so two lists with no intervening write return identical
results. -/
theorem list_returns_store_in_insertion_order (ops : List Op) :
    get_tasks (run ops) = (run ops).tasks_db ∧
    get_tasks_ep (run ops) = .okList ((run ops).tasks_db) ∧
    (ids (run ops)).Pairwise (· < ·) ∧
    get_tasks (step (run ops) Op.list) = get_tasks (run ops) ∧
    (∀ task_id : Int,
      get_tasks (step (run ops) (Op.get task_id)) = get_tasks (run ops)) :=
  ⟨rfl, rfl, (storeInv_run ops).2.2, rfl, fun _ => rfl⟩

/-- C10: in every reachable state the id counter strictly exceeds every
stored task id and equals 1 plus the number of validation-passing
creates performed so far; and no operation other than create changes
the counter — list, get, update and delete (in particular) leave it
untouched in any state. -/
theorem counter_exceeds_ids_and_only_create_increments (ops : List Op) :
    (∀ i ∈ ids (run ops), i < (run ops).task_id_counter) ∧
    (run ops).task_id_counter = 1 + (numValidCreates ops : Int) ∧
    (∀ s : StoreState,
      (step s Op.list).task_id_counter = s.task_id_counter) ∧
    (∀ (s : StoreState) (task_id : Int),
      (step s (Op.get task_id)).task_id_counter = s.task_id_counter) ∧
    (∀ (s : StoreState) (task_id : Int) (p : Payload),
      (step s (Op.update task_id p)).task_id_counter = s.task_id_counter) ∧
    (∀ (s : StoreState) (task_id : Int),
      (step s (Op.delete task_id)).task_id_counter = s.task_id_counter) := by
  refine ⟨fun i hi => ((storeInv_run ops).2.1 i hi).2,
    foldl_step_counter ops initState, ?_, ?_, ?_, ?_⟩
  · intro s
    rw [step_task_id_counter]
    simp [isValidCreate]
  · intro s task_id
    rw [step_task_id_counter]
    simp [isValidCreate]
  · intro s task_id p
    rw [step_task_id_counter]
    simp [isValidCreate]
  · intro s task_id
    rw [step_task_id_counter]
    simp [isValidCreate]

/-- C2: a 200 from the PUT endpoint stores and returns exactly the
payload's fields: `title` as sent, `description` exactly as sent (so
absent when omitted) and `completed` exactly as sent with the schema
default `false` when omitted — pre-update values are never retained. -/
theorem update_replaces_fields_wholesale (s : StoreState) (task_id : Int)
    (p : Payload) (t2 : Task) (s2 : StoreState)
    (h : update_task_ep s task_id p = (.okTask t2, s2)) :
    t2.title = p.title ∧ t2.description = p.description ∧
    t2.completed = p.completed.getD false ∧ t2 ∈ s2.tasks_db := by
  obtain ⟨tc, hp, hu⟩ := update_task_ep_ok h
  obtain ⟨t, hf, ht2, hs2⟩ := update_task_ok hu
  obtain ⟨pt, pd, pc⟩ := parsePayload_fields hp
  subst ht2
  subst hs2
  exact ⟨pt, pd, pc, applyUpdate_mem_updateFirst task_id tc s.tasks_db t hf⟩

/-- C3: when no stored task bears the requested id, get, (valid-body)
update and delete all answer 404 with detail exactly
`Task with id <id> not found`, and none of them changes the store or
the counter. -/
theorem missing_id_yields_404_and_no_change (s : StoreState) (task_id : Int)
    (p : Payload) (tc : TaskCreate)
    (h : ∀ t ∈ s.tasks_db, t.id ≠ task_id)
    (hp : parsePayload p = some tc) :
    get_task s task_id = .error (404, notFoundDetail task_id) ∧
    get_task_ep s task_id = .notFound (notFoundDetail task_id) ∧
    update_task_ep s task_id p = (.notFound (notFoundDetail task_id), s) ∧
    delete_task_ep s task_id = (.notFound (notFoundDetail task_id), s) ∧
    step s (Op.get task_id) = s ∧
    step s (Op.update task_id p) = s ∧
    step s (Op.delete task_id) = s := by
  have hfind : s.tasks_db.find? (fun t => t.id == task_id) = none := by
    rw [List.find?_eq_none]
    intro x hx
    simpa using h x hx
  have hget : get_task s task_id = .error (404, notFoundDetail task_id) := by
    unfold get_task
    rw [hfind]
  have hupd : update_task_ep s task_id p =
      (.notFound (notFoundDetail task_id), s) := by
    unfold update_task_ep
    rw [hp]
    dsimp only
    unfold update_task
    rw [hfind]
  have hdel : delete_task_ep s task_id =
      (.notFound (notFoundDetail task_id), s) := by
    unfold delete_task_ep delete_task
    rw [hfind]
  refine ⟨hget, ?_, hupd, hdel, rfl, ?_, ?_⟩
  · unfold get_task_ep
    rw [hget]
  · show (update_task_ep s task_id p).2 = s
    rw [hupd]
  · show (delete_task_ep s task_id).2 = s
    rw [hdel]

/-- C4: on both create and update, a title of exactly 100 characters
passes validation (create returns 201; update is never a 422), while a
101-character title and an empty title are rejected with 422, leaving
the store — and hence the id counter — exactly as it was. -/
theorem title_length_boundary (s : StoreState) (p : Payload) (now : String)
    (task_id : Int)
    (hd : Option.all (fun d => decide (d.length ≤ 500)) p.description = true) :
    (p.title.length = 100 →
      ∃ t s2, create_task_ep s p now = (.created t, s2)) ∧
    (p.title.length = 100 →
      (update_task_ep s task_id p).1 ≠ .unprocessable) ∧
    (p.title.length = 101 →
      create_task_ep s p now = (.unprocessable, s) ∧
      update_task_ep s task_id p = (.unprocessable, s)) ∧
    (p.title.length = 0 →
      create_task_ep s p now = (.unprocessable, s) ∧
      update_task_ep s task_id p = (.unprocessable, s)) := by
  refine ⟨?_, ?_, ?_, ?_⟩
  · intro h100
    have hp := parsePayload_eq_some p
      (validPayload_of_len p (by omega) (by omega) hd)
    have hcreate : create_task_ep s p now =
        (.created (create_task s
            { title := p.title, description := p.description,
              completed := p.completed.getD false } now).1,
          (create_task s
            { title := p.title, description := p.description,
              completed := p.completed.getD false } now).2) := by
      unfold create_task_ep
      rw [hp]
    exact ⟨_, _, hcreate⟩
  · intro h100
    have hp := parsePayload_eq_some p
      (validPayload_of_len p (by omega) (by omega) hd)
    unfold update_task_ep
    rw [hp]
    dsimp only
    cases hu : update_task s task_id
        { title := p.title, description := p.description,
          completed := p.completed.getD false } with
    | error e =>
      dsimp only
      exact fun hc => ApiResult.noConfusion hc
    | ok r =>
      dsimp only
      exact fun hc => ApiResult.noConfusion hc
  · intro h101
    have hp := parsePayload_eq_none p (validPayload_false_of_long p (by omega))
    exact ⟨create_task_ep_invalid s p now hp,
           update_task_ep_invalid s task_id p hp⟩
  · intro h0
    have hp := parsePayload_eq_none p (validPayload_false_of_empty p h0)
    exact ⟨create_task_ep_invalid s p now hp,
           update_task_ep_invalid s task_id p hp⟩

/-- C5: a successful store-level update touches only the three writable
fields of the targeted task: every position keeps its id and creation
stamp, every task not bearing the target id is entirely unchanged at
its position (so the list keeps its order and length), the returned
task carries the new field values, it is stored, and it keeps the id
and `created_at` of the task that was found. -/
theorem update_frame_effect (s : StoreState) (task_id : Int) (u : TaskCreate)
    (t2 : Task) (s2 : StoreState)
    (h : update_task s task_id u = .ok (t2, s2)) :
    s2.task_id_counter = s.task_id_counter ∧
    List.Forall₂ (fun old new => new.id = old.id ∧
        new.created_at = old.created_at ∧ (old.id ≠ task_id → new = old))
      s.tasks_db s2.tasks_db ∧
    t2.title = u.title ∧ t2.description = u.description ∧
    t2.completed = u.completed ∧ t2 ∈ s2.tasks_db ∧
    (∃ t, s.tasks_db.find? (fun x => x.id == task_id) = some t ∧
      t2.id = t.id ∧ t2.created_at = t.created_at) := by
  obtain ⟨t, hf, ht2, hs2⟩ := update_task_ok h
  subst ht2
  subst hs2
  exact ⟨rfl, updateFirst_forall₂ task_id u s.tasks_db, rfl, rfl, rfl,
    applyUpdate_mem_updateFirst task_id u s.tasks_db t hf,
    ⟨t, hf, rfl, rfl⟩⟩

/-- C6: in any reachable state, once delete succeeds on an id, an
immediately following get and an immediately following delete of the
same id both answer 404 with the exact not-found detail. -/
theorem delete_is_terminal (ops : List Op) (task_id : Int) (s2 : StoreState)
    (h : delete_task (run ops) task_id = .ok s2) :
    get_task s2 task_id = .error (404, notFoundDetail task_id) ∧
    delete_task s2 task_id = .error (404, notFoundDetail task_id) := by
  obtain ⟨⟨t, hf⟩, hs2⟩ := delete_task_ok h
  have hnone : (removeFirst task_id (run ops).tasks_db).find?
      (fun x => x.id == task_id) = none :=
    find?_removeFirst_eq_none task_id (run ops).tasks_db
      (nodup_of_pairwise_lt (storeInv_run ops).2.2)
  subst hs2
  constructor
  · unfold get_task
    dsimp only
    rw [hnone]
  · unfold delete_task
    dsimp only
    rw [hnone]

/-- C7: in any reachable state, a 201 from the POST endpoint followed
by a get of the returned id yields exactly the created task, whose
`title`, `description` and `completed` round-trip the payload (with the
schema defaults for omitted fields), whose `created_at` is the creation
instant, and whose id is populated (at least 1). -/
theorem create_then_get_round_trip (ops : List Op) (p : Payload)
    (now : String) (t : Task) (s2 : StoreState)
    (h : create_task_ep (run ops) p now = (.created t, s2)) :
    get_task s2 t.id = .ok t ∧
    t.title = p.title ∧ t.description = p.description ∧
    t.completed = p.completed.getD false ∧ t.created_at = now ∧
    1 ≤ t.id := by
  obtain ⟨tc, hp, ht, hs2⟩ := create_task_ep_created h
  obtain ⟨h1, h2, h3⟩ := storeInv_run ops
  obtain ⟨pt, pd, pc⟩ := parsePayload_fields hp
  have hid : t.id = (run ops).task_id_counter := by rw [ht]
  have hfound : ((run ops).tasks_db ++ [t]).find?
      (fun x => x.id == t.id) = some t :=
    find?_append_new t.id t rfl (run ops).tasks_db
      (fun i hi => by rw [hid]; exact (h2 i hi).2)
  refine ⟨?_, ?_, ?_, ?_, ?_, ?_⟩
  · rw [hs2]
    unfold get_task
    dsimp only
    rw [hfound]
  · rw [ht]
    exact pt
  · rw [ht]
    exact pd
  · rw [ht]
    exact pc
  · rw [ht]
  · rw [hid]
    exact h1

/-- Witness for C2: updating the sample store with a payload that omits
`description` and `completed` stores the schema defaults, not the old
values. -/
theorem update_replaces_fields_wholesale_witness :
    sampleUpdated.title = samplePayload.title ∧
    sampleUpdated.description = samplePayload.description ∧
    sampleUpdated.completed = samplePayload.completed.getD false ∧
    sampleUpdated ∈ sampleStore2.tasks_db :=
  update_replaces_fields_wholesale sampleStore 1 samplePayload
    sampleUpdated sampleStore2 rfl

/-- Witness for C3: requesting id 2 against the sample one-task store
(id 1) yields 404 with the exact detail and changes nothing. -/
theorem missing_id_yields_404_witness :
    notFoundDetail 2 = "Task with id 2 not found" ∧
    (get_task sampleStore 2 = .error (404, notFoundDetail 2) ∧
     get_task_ep sampleStore 2 = .notFound (notFoundDetail 2) ∧
     update_task_ep sampleStore 2 samplePayload =
       (.notFound (notFoundDetail 2), sampleStore) ∧
     delete_task_ep sampleStore 2 =
       (.notFound (notFoundDetail 2), sampleStore) ∧
     step sampleStore (Op.get 2) = sampleStore ∧
     step sampleStore (Op.update 2 samplePayload) = sampleStore ∧
     step sampleStore (Op.delete 2) = sampleStore) :=
  ⟨rfl, missing_id_yields_404_and_no_change sampleStore 2 samplePayload
      { title := "b", description := none, completed := false }
      (by decide) rfl⟩

/-- Witness for C4: the 100-character title payload has a valid
description, and the boundary outcomes hold for it concretely. -/
theorem title_length_boundary_witness :
    Option.all (fun d => decide (d.length ≤ 500)) title100.description = true ∧
    ((title100.title.length = 100 →
       ∃ t s2, create_task_ep initState title100 "N" = (.created t, s2)) ∧
     (title100.title.length = 100 →
       (update_task_ep initState 1 title100).1 ≠ .unprocessable) ∧
     (title100.title.length = 101 →
       create_task_ep initState title100 "N" = (.unprocessable, initState) ∧
       update_task_ep initState 1 title100 = (.unprocessable, initState)) ∧
     (title100.title.length = 0 →
       create_task_ep initState title100 "N" = (.unprocessable, initState) ∧
       update_task_ep initState 1 title100 = (.unprocessable, initState))) :=
  ⟨rfl, title_length_boundary initState title100 "N" 1 rfl⟩

/-- Witness for C5: the sample update keeps counter, order, ids and
creation stamps, and stores the updated task. -/
theorem update_frame_effect_witness :
    sampleStore2.task_id_counter = sampleStore.task_id_counter ∧
    List.Forall₂ (fun old new => new.id = old.id ∧
        new.created_at = old.created_at ∧ (old.id ≠ 1 → new = old))
      sampleStore.tasks_db sampleStore2.tasks_db ∧
    sampleUpdated.title = "b" ∧ sampleUpdated.description = none ∧
    sampleUpdated.completed = false ∧
    sampleUpdated ∈ sampleStore2.tasks_db ∧
    (∃ t, sampleStore.tasks_db.find? (fun x => x.id == 1) = some t ∧
      sampleUpdated.id = t.id ∧ sampleUpdated.created_at = t.created_at) :=
  update_frame_effect sampleStore 1
    { title := "b", description := none, completed := false }
    sampleUpdated sampleStore2 rfl

/-- Witness for C6: after creating task 1 and deleting it, both get and
delete of id 1 answer 404. -/
theorem delete_is_terminal_witness :
    get_task { tasks_db := [], task_id_counter := 2 } 1 =
      .error (404, notFoundDetail 1) ∧
    delete_task { tasks_db := [], task_id_counter := 2 } 1 =
      .error (404, notFoundDetail 1) :=
  delete_is_terminal [Op.create samplePayload "T"] 1
    { tasks_db := [], task_id_counter := 2 } rfl

/-- Witness for C7: posting the sample payload into the empty store and
getting the returned id yields the identical task. -/
theorem create_then_get_round_trip_witness :
    get_task { tasks_db := [sampleCreated], task_id_counter := 2 }
        sampleCreated.id = .ok sampleCreated ∧
    sampleCreated.title = samplePost.title ∧
    sampleCreated.description = samplePost.description ∧
    sampleCreated.completed = samplePost.completed.getD false ∧
    sampleCreated.created_at = "N" ∧ 1 ≤ sampleCreated.id :=
  create_then_get_round_trip [] samplePost "N" sampleCreated
    { tasks_db := [sampleCreated], task_id_counter := 2 } rfl

end TaskApi
